import Mathlib

/-!
Shallow embedding of `types/share_proof.go` from celestia-core: the `ShareProof`
data model, its `Validate`, `VerifyProof`, `ToProto` and `ShareProofFromProto`
operations, and theorems settling the specification claims about them.

Modelling conventions:
* Bytes and byte strings are `List Nat`.
* Go `int32` values are `Int`s; every place the Go code performs `int32`
  arithmetic (the share-count accumulator, `int32(len(sp.Data))`, the per-row
  difference `proof.End - proof.Start`, and the running cursor of
  `VerifyProof`) is embedded with an explicit two's-complement wrap `wrap32`.
* A Go runtime panic (nil-pointer dereference, slice index out of range) is
  modelled by returning `none`; a normal return value `v` is `some v`.
* Go `error` results are `Option String` (`none` = `nil`), carrying the exact
  message strings from the source.
* The two external capabilities are parameters: `Verifier` stands for
  `nmt.NewInclusionProof(...).VerifyInclusion(consts.NewBaseHashFunc(), ...)`
  (the NMT library, outside this repository) and `RowValidator` stands for
  `RowProof.Validate` (repository code that is not under `src/`; the spec
  treats it as the outer path-verification step). All theorems quantify over
  them, so they hold for every implementation of the two capabilities.
-/

/-- A byte string (`[]byte` in Go). -/
abbrev Bytes : Type := List Nat

/-- `tmproto.NMTProof`: one per-row share-inclusion proof with its half-open
`[start, end)` range (Go `int32` fields) and sibling nodes. -/
structure NMTProof where
  start : Int
  end_ : Int
  nodes : List Bytes
  leafHash : Bytes
deriving DecidableEq

/-- `merkle.Proof` / `crypto.Proof`: a Merkle path with `(total, index)`
metadata (Go `int64` fields). Both Go types carry exactly these fields, so one
Lean structure serves both sides of the proto conversion. -/
structure MerkleProof where
  total : Int
  index : Int
  leafHash : Bytes
  aunts : List Bytes
deriving DecidableEq

/-- `types.RowProof`: ordered row roots, one Merkle path per row root
(`[]*merkle.Proof`, whose entries are nil-able pointers, hence `Option`),
and the inclusive absolute row range (Go `uint32`). -/
structure RowProof where
  rowRoots : List Bytes
  proofs : List (Option MerkleProof)
  startRow : Nat
  endRow : Nat
deriving DecidableEq

/-- `types.ShareProof`: the flattened raw shares, one NMT proof per row, the
namespace ID, and the embedded `RowProof`. -/
structure ShareProof where
  data : List Bytes
  shareProofs : List NMTProof
  namespaceID : Bytes
  rowProof : RowProof
deriving DecidableEq

/-- `tmproto.RowProof`: the wire form of `RowProof`. -/
structure PBRowProof where
  rowRoots : List Bytes
  proofs : List (Option MerkleProof)
  startRow : Nat
  endRow : Nat
deriving DecidableEq

/-- `tmproto.ShareProof`: the wire form of `ShareProof`; its `RowProof` field
is a nil-able pointer. -/
structure PBShareProof where
  data : List Bytes
  shareProofs : List NMTProof
  namespaceId : Bytes
  rowProof : Option PBRowProof
deriving DecidableEq

/-- Two's-complement wrap of an integer into the `int32` range
`[-2^31, 2^31)`: the value a Go `int32` variable actually holds. -/
def wrap32 (n : Int) : Int := (n + 2147483648) % 4294967296 - 2147483648

/-- The proposition that `n` already lies in the `int32` range (true of every
value decoded into a Go `int32` field). -/
abbrev isInt32 (n : Int) : Prop := -2147483648 ≤ n ∧ n < 2147483648

/-- The Row-Inclusion Verifier capability (the external NMT library):
arguments are `(start, end, nodes, namespaceID, shares, rowRoot)` as passed by
`VerifyProof`; the hash function and the `ignoreMaxNamespace` flag are fixed
constants in the source and are folded into the function. -/
abbrev Verifier : Type := Int → Int → List Bytes → Bytes → List Bytes → Bytes → Bool

/-- The `RowProof.Validate` capability (repository code outside `src/`):
given the row proof and the data root, returns `nil` or an error. -/
abbrev RowValidator : Type := RowProof → Bytes → Option String

/-- The `numberOfSharesInProofs` accumulator from `ShareProof.Validate`:
an `int32` running sum of the `int32` differences `proof.End - proof.Start`. -/
def numberOfSharesInProofs (ps : List NMTProof) : Int :=
  ps.foldl (fun acc p => wrap32 (acc + wrap32 (p.end_ - p.start))) 0

/-- The error message of the count-consistency check. -/
def countMismatchMsg : String :=
  "invalid number of proofs, row roots, or data. they all must be the same to verify the proof"

/-- The error message for a negative `start`. -/
def negativeStartMsg : String := "proof index cannot be negative"

/-- The error message for a non-positive `int32` difference `end - start`. -/
def emptyRangeMsg : String := "proof total must be positive"

/-- The error message `Validate` returns when `VerifyProof` is false. -/
def inconsistentMsg : String := "proof is not internally consistent"

/-- Step 1 of `ShareProof.Validate`: the count-consistency check
(`len(RowRoots) != len(ShareProofs) || int32(len(Data)) != numberOfSharesInProofs`). -/
def countCheck (sp : ShareProof) : Option String :=
  if sp.rowProof.rowRoots.length ≠ sp.shareProofs.length ∨
      wrap32 (sp.data.length : Int) ≠ numberOfSharesInProofs sp.shareProofs then
    some countMismatchMsg
  else
    none

/-- Step 2 of `ShareProof.Validate`: the range-sanity loop, returning the
first failure in order (`proof.Start < 0` is tested before
`(proof.End - proof.Start) <= 0` for each proof). -/
def rangeCheck : List NMTProof → Option String
  | [] => none
  | p :: ps =>
    if p.start < 0 then some negativeStartMsg
    else if wrap32 (p.end_ - p.start) ≤ 0 then some emptyRangeMsg
    else rangeCheck ps

/-- The loop body of `ShareProof.VerifyProof`: walks the per-row proofs with
the row index `i` (into `RowRoots`) and the `int32` cursor into `data`.
`none` models the Go slice-bounds panic of `sp.Data[cursor : sharesUsed+cursor]`
(which requires `0 ≤ cursor ≤ sharesUsed+cursor ≤ len(Data)`) or the index
panic of `sp.RowProof.RowRoots[i]`. -/
def verifyRows (v : Verifier) (ns : Bytes) (data : List Bytes) (rowRoots : List Bytes) :
    List NMTProof → Nat → Int → Option Bool
  | [], _, _ => some true
  | p :: ps, i, cursor =>
    let sharesUsed : Int := wrap32 (p.end_ - p.start)
    let hi : Int := wrap32 (sharesUsed + cursor)
    if 0 ≤ cursor ∧ cursor ≤ hi ∧ hi ≤ (data.length : Int) ∧ i < rowRoots.length then
      if v p.start p.end_ p.nodes ns ((data.drop cursor.toNat).take (hi - cursor).toNat)
          (rowRoots.getD i []) then
        verifyRows v ns data rowRoots ps (i + 1) (wrap32 (cursor + sharesUsed))
      else
        some false
    else
      none

/-- `ShareProof.VerifyProof`, parameterized by the Row-Inclusion Verifier. -/
def ShareProof.VerifyProof (sp : ShareProof) (v : Verifier) : Option Bool :=
  verifyRows v sp.namespaceID sp.data sp.rowProof.rowRoots sp.shareProofs 0 0

/-- `ShareProof.Validate`, parameterized by the Row-Inclusion Verifier and the
`RowProof.Validate` capability. `some none` is a `nil` return, `some (some e)`
is an error return, `none` is a panic. -/
def ShareProof.Validate (sp : ShareProof) (rpv : RowValidator) (v : Verifier)
    (root : Bytes) : Option (Option String) :=
  match countCheck sp with
  | some e => some (some e)
  | none =>
    match rangeCheck sp.shareProofs with
    | some e => some (some e)
    | none =>
      match sp.VerifyProof v with
      | none => none
      | some false => some (some inconsistentMsg)
      | some true => some (rpv sp.rowProof root)

/-- Modelled from the spec: `merkle.Proof.ToProto` (repository code that is
not under `src/`) is a lossless structural mapping of the four fields, with a
nil pointer mapped to a nil pointer. -/
def merkleProofToProto (p : Option MerkleProof) : Option MerkleProof :=
  p.map (fun q => ⟨q.total, q.index, q.leafHash, q.aunts⟩)

/-- The field-wise copy `&merkle.Proof{Total: ..., Index: ..., LeafHash: ...,
Aunts: ...}` performed by `ShareProofFromProto` on each (non-nil) entry. -/
def protoToMerkleProof (p : Option MerkleProof) : Option MerkleProof :=
  p.map (fun q => ⟨q.total, q.index, q.leafHash, q.aunts⟩)

/-- `ShareProof.ToProto`. The loop runs over `RowRoots` and indexes
`Proofs[i]`, so it panics (`none`) when `RowRoots` is longer than `Proofs`;
when `Proofs` is longer, the entries of the proto `Proofs` slice beyond
`len(RowRoots)` keep their nil zero value. `HexBytes.Bytes()` is the identity
on the underlying bytes. -/
def ShareProof.ToProto (sp : ShareProof) : Option PBShareProof :=
  if sp.rowProof.rowRoots.length ≤ sp.rowProof.proofs.length then
    some
      { data := sp.data
        shareProofs := sp.shareProofs
        namespaceId := sp.namespaceID
        rowProof := some
          { rowRoots := sp.rowProof.rowRoots
            proofs :=
              (sp.rowProof.proofs.take sp.rowProof.rowRoots.length).map merkleProofToProto
                ++ List.replicate (sp.rowProof.proofs.length - sp.rowProof.rowRoots.length)
                    none
            startRow := sp.rowProof.startRow
            endRow := sp.rowProof.endRow } }
  else
    none

/-- `ShareProofFromProto`. It dereferences `pb.RowProof` (panic when nil), and
its loop runs over `Proofs` while indexing `RowRoots[i]` and dereferencing
each `Proofs[i]` pointer: it panics when `Proofs` is longer than `RowRoots` or
when some `Proofs` entry is nil. The `rowRoots` slice is allocated with
`len(RowRoots)` entries and only the first `len(Proofs)` are filled; the rest
keep the nil zero value (`[]`). The error result is always `nil`. -/
def ShareProofFromProto (pb : PBShareProof) : Option (ShareProof × Option String) :=
  match pb.rowProof with
  | none => none
  | some rp =>
    if rp.proofs.length ≤ rp.rowRoots.length ∧ none ∉ rp.proofs then
      some
        ({ data := pb.data
           shareProofs := pb.shareProofs
           namespaceID := pb.namespaceId
           rowProof :=
             { rowRoots :=
                 rp.rowRoots.take rp.proofs.length
                   ++ List.replicate (rp.rowRoots.length - rp.proofs.length) ([] : Bytes)
               proofs := rp.proofs.map protoToMerkleProof
               startRow := rp.startRow
               endRow := rp.endRow } }, none)
    else
      none

/-- The mathematical (non-wrapping) total share count `Σ (end[i] - start[i])`
as the specification's count law reads, for comparison with the `int32`
accumulator the code actually uses. -/
def mathShareCount (ps : List NMTProof) : Int :=
  ps.foldl (fun acc p => acc + (p.end_ - p.start)) 0

/-- The walk described by the specification of `VerifyProof`: rows in order,
a running cursor into `Data`; row `i` hands the Row-Inclusion Verifier
`(start[i], end[i], nodes[i], namespaceID, Data[cursor .. cursor+(end[i]-start[i])],
RowRoots[i])` and the cursor advances by `end[i] - start[i]`; false as soon as
one row fails, true when every row verifies. Stated with exact (non-wrapping)
integer arithmetic, following the claim's words. -/
def specRowWalk (v : Verifier) (ns : Bytes) (data : List Bytes) :
    List NMTProof → List Bytes → Int → Bool
  | [], _, _ => true
  | p :: ps, rowRoots, cursor =>
    v p.start p.end_ p.nodes ns
        ((data.drop cursor.toNat).take (p.end_ - p.start).toNat) (rowRoots.headD [])
      && specRowWalk v ns data ps rowRoots.tail (cursor + (p.end_ - p.start))

/-- Bounds along the walk of `VerifyProof`, with exact integer arithmetic:
every per-row share count is non-negative, and every cursor position stays
both within `int32` range and within `data`. Under these bounds the wrapped
arithmetic of the code coincides with exact arithmetic and no slice panics. -/
def boundsAux (n : Int) : List NMTProof → Int → Prop
  | [], _ => True
  | p :: ps, cursor =>
    0 ≤ p.end_ - p.start ∧ cursor + (p.end_ - p.start) < 2147483648 ∧
      cursor + (p.end_ - p.start) ≤ n ∧ boundsAux n ps (cursor + (p.end_ - p.start))

/-- A `ShareProof` whose declared ranges slice `Data` in bounds and whose rows
all have a row root: sufficient for `VerifyProof` to run to a boolean. -/
def InBounds (sp : ShareProof) : Prop :=
  sp.shareProofs.length ≤ sp.rowProof.rowRoots.length ∧
    boundsAux (sp.data.length : Int) sp.shareProofs 0

/-! Helper lemmas. -/

theorem wrap32_eq_self (n : Int) (h1 : -2147483648 ≤ n) (h2 : n < 2147483648) :
    wrap32 n = n := by
  unfold wrap32
  rw [Int.emod_eq_of_lt (by omega) (by omega)]
  omega

theorem headD_drop {α : Type} (l : List α) (i : Nat) (d : α) :
    (l.drop i).headD d = l.getD i d := by
  induction l generalizing i with
  | nil => cases i <;> rfl
  | cons a t ih =>
    cases i with
    | zero => rfl
    | succ j => exact ih j

theorem protoToMerkleProof_eq (p : Option MerkleProof) : protoToMerkleProof p = p := by
  cases p <;> rfl

theorem merkleProofToProto_eq (p : Option MerkleProof) : merkleProofToProto p = p := by
  cases p <;> rfl

theorem map_protoToMerkleProof (l : List (Option MerkleProof)) :
    l.map protoToMerkleProof = l := by
  induction l with
  | nil => rfl
  | cons a t ih => simp [protoToMerkleProof_eq, ih]

theorem map_merkleProofToProto (l : List (Option MerkleProof)) :
    l.map merkleProofToProto = l := by
  induction l with
  | nil => rfl
  | cons a t ih => simp [merkleProofToProto_eq, ih]

theorem countCheck_msg (sp : ShareProof) (e : String) (h : countCheck sp = some e) :
    e = countMismatchMsg := by
  unfold countCheck at h
  split at h
  · exact (Option.some.inj h).symm
  · exact absurd h (by simp)

theorem validate_of_countErr (sp : ShareProof) (rpv : RowValidator) (v : Verifier)
    (root : Bytes) (e : String) (hc : countCheck sp = some e) :
    sp.Validate rpv v root = some (some e) := by
  simp [ShareProof.Validate, hc]

theorem validate_of_rangeErr (sp : ShareProof) (rpv : RowValidator) (v : Verifier)
    (root : Bytes) (e : String) (hc : countCheck sp = none)
    (hr : rangeCheck sp.shareProofs = some e) :
    sp.Validate rpv v root = some (some e) := by
  simp [ShareProof.Validate, hc, hr]

theorem validate_of_inconsistent (sp : ShareProof) (rpv : RowValidator) (v : Verifier)
    (root : Bytes) (hc : countCheck sp = none) (hr : rangeCheck sp.shareProofs = none)
    (hv : sp.VerifyProof v = some false) :
    sp.Validate rpv v root = some (some inconsistentMsg) := by
  simp [ShareProof.Validate, hc, hr, hv]

theorem validate_of_panic (sp : ShareProof) (rpv : RowValidator) (v : Verifier)
    (root : Bytes) (hc : countCheck sp = none) (hr : rangeCheck sp.shareProofs = none)
    (hv : sp.VerifyProof v = none) :
    sp.Validate rpv v root = none := by
  simp [ShareProof.Validate, hc, hr, hv]

theorem validate_of_checks (sp : ShareProof) (rpv : RowValidator) (v : Verifier)
    (root : Bytes) (hc : countCheck sp = none) (hr : rangeCheck sp.shareProofs = none)
    (hv : sp.VerifyProof v = some true) :
    sp.Validate rpv v root = some (rpv sp.rowProof root) := by
  simp [ShareProof.Validate, hc, hr, hv]

/-! Concrete capability instances and concrete proofs used by witnesses and
counterexamples. -/

/-- The everywhere-true Row-Inclusion Verifier. -/
def vTrue : Verifier := fun _ _ _ _ _ _ => true

/-- The everywhere-false Row-Inclusion Verifier. -/
def vFalse : Verifier := fun _ _ _ _ _ _ => false

/-- The always-nil RowProof validator. -/
def rpvOk : RowValidator := fun _ _ => none

/-- A RowProof validator that always fails. -/
def rpvBad : RowValidator := fun _ _ => some "row proof error"

/-- A single-row proof with one share and consistent counts and ranges. -/
def spOne : ShareProof :=
  { data := [[1]]
    shareProofs := [⟨0, 1, [], []⟩]
    namespaceID := [0]
    rowProof := { rowRoots := [[2]], proofs := [], startRow := 0, endRow := 0 } }

/-- A zero-row proof: empty data, share proofs and row roots. -/
def spZero : ShareProof :=
  { data := [], shareProofs := [], namespaceID := [], rowProof := ⟨[], [], 5, 3⟩ }

/-- A count-inconsistent proof: one row root but no per-row proofs. -/
def spCountBad : ShareProof :=
  { data := [], shareProofs := [], namespaceID := [], rowProof := ⟨[[1]], [], 0, 0⟩ }

/-- A range-inconsistent proof: consistent counts but a negative start. -/
def spRangeBad : ShareProof :=
  { data := [[1]]
    shareProofs := [⟨-1, 0, [], []⟩]
    namespaceID := []
    rowProof := { rowRoots := [[2]], proofs := [], startRow := 0, endRow := 0 } }

/-- C1: `ShareProof.Validate` executes its four steps in the fixed order
count-consistency check, range-sanity check, `VerifyProof`, then
`RowProof.Validate`; it returns nil exactly when all four pass, and each
failure short-circuits: after a count failure the result is the count error
for every choice of the two cryptographic capabilities, after a range failure
it is that range error likewise, and a false `VerifyProof` yields the
inconsistency error for every `RowProof.Validate`. -/
theorem validate_four_steps (rpv : RowValidator) (v : Verifier) (sp : ShareProof)
    (root : Bytes) :
    (sp.Validate rpv v root = some none ↔
      countCheck sp = none ∧ rangeCheck sp.shareProofs = none ∧
        sp.VerifyProof v = some true ∧ rpv sp.rowProof root = none)
    ∧ (countCheck sp ≠ none →
        ∀ rpv2 v2, sp.Validate rpv2 v2 root = some (some countMismatchMsg))
    ∧ (∀ e, countCheck sp = none → rangeCheck sp.shareProofs = some e →
        ∀ rpv2 v2, sp.Validate rpv2 v2 root = some (some e))
    ∧ (countCheck sp = none → rangeCheck sp.shareProofs = none →
        sp.VerifyProof v = some false →
        ∀ rpv2, sp.Validate rpv2 v root = some (some inconsistentMsg))
    ∧ (countCheck sp = none → rangeCheck sp.shareProofs = none →
        sp.VerifyProof v = some true →
        sp.Validate rpv v root = some (rpv sp.rowProof root)) := by
  refine ⟨?_, ?_, ?_, ?_, ?_⟩
  · rcases hc : countCheck sp with _ | e
    · rcases hr : rangeCheck sp.shareProofs with _ | e
      · rcases hv : sp.VerifyProof v with _ | b
        · simp [ShareProof.Validate, hc, hr, hv]
        · cases b <;> simp [ShareProof.Validate, hc, hr, hv]
      · simp [ShareProof.Validate, hc, hr]
    · simp [ShareProof.Validate, hc]
  · intro hne rpv2 v2
    rcases hc : countCheck sp with _ | e
    · exact absurd hc hne
    · rw [countCheck_msg sp e hc] at hc
      simp [ShareProof.Validate, hc]
  · intro e hc hr rpv2 v2
    simp [ShareProof.Validate, hc, hr]
  · intro hc hr hv rpv2
    simp [ShareProof.Validate, hc, hr, hv]
  · intro hc hr hv
    simp [ShareProof.Validate, hc, hr, hv]

/-- Witness for C1: each clause of `validate_four_steps` exercised at a
concrete proof, verifier and row validator. -/
theorem validate_four_steps_witness :
    ShareProof.Validate spZero rpvOk vTrue [] = some none
    ∧ ShareProof.Validate spCountBad rpvOk vTrue [] = some (some countMismatchMsg)
    ∧ ShareProof.Validate spRangeBad rpvOk vTrue [] = some (some negativeStartMsg)
    ∧ ShareProof.Validate spOne rpvOk vFalse [] = some (some inconsistentMsg)
    ∧ ShareProof.Validate spOne rpvBad vTrue [] = some (rpvBad spOne.rowProof []) :=
  ⟨(validate_four_steps rpvOk vTrue spZero []).1.mpr
      ⟨by decide, by decide, by decide, by decide⟩,
   (validate_four_steps rpvOk vTrue spCountBad []).2.1 (by decide) rpvOk vTrue,
   (validate_four_steps rpvOk vTrue spRangeBad []).2.2.1 negativeStartMsg
      (by decide) (by decide) rpvOk vTrue,
   (validate_four_steps rpvOk vFalse spOne []).2.2.2.1 (by decide) (by decide)
      (by decide) rpvOk,
   (validate_four_steps rpvBad vTrue spOne []).2.2.2.2 (by decide) (by decide)
      (by decide)⟩

/-- C6: a proof declaring zero rows (empty `ShareProofs`, `RowRoots` and
`Data`) is not rejected by `Validate`'s own checks: the count check passes,
the range loop passes vacuously, `VerifyProof` is vacuously true, and
`Validate` returns exactly the result of the embedded `RowProof.Validate`,
for every row validator, verifier, namespace, Merkle paths, row range and
root. -/
theorem zero_row_validate (rpv : RowValidator) (v : Verifier) (ns : Bytes)
    (prs : List (Option MerkleProof)) (s e : Nat) (root : Bytes) :
    countCheck ⟨[], [], ns, ⟨[], prs, s, e⟩⟩ = none
    ∧ rangeCheck (ShareProof.mk [] [] ns ⟨[], prs, s, e⟩).shareProofs = none
    ∧ ShareProof.VerifyProof ⟨[], [], ns, ⟨[], prs, s, e⟩⟩ v = some true
    ∧ ShareProof.Validate ⟨[], [], ns, ⟨[], prs, s, e⟩⟩ rpv v root =
        some (rpv ⟨[], prs, s, e⟩ root) := by
  have h1 : countCheck ⟨[], [], ns, ⟨[], prs, s, e⟩⟩ = none := by
    simp [countCheck, numberOfSharesInProofs, wrap32]
  exact ⟨h1, rfl, rfl, validate_of_checks _ rpv v root h1 rfl rfl⟩

/-- C8: for every proof whose first three validation steps pass, `Validate`
returns exactly what the embedded `RowProof.Validate` returns: a row-proof
failure is propagated unchanged, and a row-proof success makes `Validate`
succeed. -/
theorem rowproof_result_propagated (rpv : RowValidator) (v : Verifier)
    (sp : ShareProof) (root : Bytes) (hc : countCheck sp = none)
    (hr : rangeCheck sp.shareProofs = none) (hv : sp.VerifyProof v = some true) :
    sp.Validate rpv v root = some (rpv sp.rowProof root)
    ∧ (∀ e, rpv sp.rowProof root = some e → sp.Validate rpv v root = some (some e))
    ∧ (rpv sp.rowProof root = none → sp.Validate rpv v root = some none) := by
  have h : sp.Validate rpv v root = some (rpv sp.rowProof root) :=
    validate_of_checks sp rpv v root hc hr hv
  exact ⟨h, fun e he => by rw [h, he], fun he => by rw [h, he]⟩

/-- Witness for C8: a failing row validator's error is propagated verbatim on
a concrete proof that passes the first three steps. -/
theorem rowproof_result_propagated_witness :
    ShareProof.Validate spOne rpvBad vTrue [] = some (some "row proof error") :=
  (rowproof_result_propagated rpvBad vTrue spOne [] (by decide) (by decide)
    (by decide)).2.1 "row proof error" (by decide)

/-- A proof whose single row declares the `int32` range
`[2147483647, -2147483648)`: the `int32` difference `end - start` wraps to 1,
so the code's count and range checks pass with one share of data, although
the exact difference is `-4294967295`. -/
def spWrap : ShareProof :=
  { data := [[7]]
    shareProofs := [⟨2147483647, -2147483648, [], []⟩]
    namespaceID := []
    rowProof := { rowRoots := [[2]], proofs := [], startRow := 0, endRow := 0 } }

/-- C3 counterexample: for `spWrap` the exact sum `Σ (end[i] - start[i])` is
`-4294967295` while `len(Data)` is 1, so the claim requires `Validate` to
return `CountMismatch`; but the code sums `int32` differences, which wrap to
1, so every check passes and `Validate` succeeds. -/
theorem count_law_counterexample :
    mathShareCount spWrap.shareProofs ≠ (spWrap.data.length : Int)
    ∧ ShareProof.Validate spWrap rpvOk vTrue [] = some none :=
  ⟨by decide, by decide⟩

/-- C3 (amended): with the count comparison taken in `int32` arithmetic as
the code computes it — `len(RowRoots) ≠ len(ShareProofs)`, or
`int32(len(Data))` differs from the wrapping `int32` sum of the `int32`
differences `end[i] - start[i]` — `Validate` returns the `CountMismatch`
error, and it does so for every row validator and verifier, so before any
cryptographic verification. -/
theorem count_law_wrapped (sp : ShareProof) (root : Bytes)
    (h : sp.rowProof.rowRoots.length ≠ sp.shareProofs.length ∨
      wrap32 (sp.data.length : Int) ≠ numberOfSharesInProofs sp.shareProofs) :
    ∀ rpv v, sp.Validate rpv v root = some (some countMismatchMsg) := fun rpv v =>
  validate_of_countErr sp rpv v root countMismatchMsg (by unfold countCheck; rw [if_pos h])

/-- Witness for C3's amended count law at a concrete count-inconsistent proof. -/
theorem count_law_wrapped_witness :
    ShareProof.Validate spCountBad rpvOk vTrue [] = some (some countMismatchMsg) :=
  count_law_wrapped spCountBad [] (Or.inl (by decide)) rpvOk vTrue

theorem rangeCheck_msg (ps : List NMTProof) (e : String) (h : rangeCheck ps = some e) :
    e = negativeStartMsg ∨ e = emptyRangeMsg := by
  induction ps with
  | nil => exact absurd h (by simp [rangeCheck])
  | cons p t ih =>
    unfold rangeCheck at h
    split at h
    · exact Or.inl (Option.some.inj h).symm
    · split at h
      · exact Or.inr (Option.some.inj h).symm
      · exact ih h

theorem rangeCheck_isSome_of_bad (ps : List NMTProof)
    (h : ∃ p ∈ ps, p.start < 0 ∨ wrap32 (p.end_ - p.start) ≤ 0) :
    ∃ e, rangeCheck ps = some e := by
  induction ps with
  | nil => simp at h
  | cons p t ih =>
    unfold rangeCheck
    by_cases h1 : p.start < 0
    · exact ⟨negativeStartMsg, by rw [if_pos h1]⟩
    · by_cases h2 : wrap32 (p.end_ - p.start) ≤ 0
      · exact ⟨emptyRangeMsg, by rw [if_neg h1, if_pos h2]⟩
      · rcases h with ⟨q, hq, hbad⟩
        rcases List.mem_cons.mp hq with rfl | hmem
        · rcases hbad with hb | hb
          · exact absurd hb h1
          · exact absurd hb h2
        · obtain ⟨e, he⟩ := ih ⟨q, hmem, hbad⟩
          exact ⟨e, by rw [if_neg h1, if_neg h2]; exact he⟩

theorem rangeCheck_none_of_good (ps : List NMTProof)
    (h : ∀ p ∈ ps, 0 ≤ p.start ∧ p.start < p.end_ ∧ isInt32 p.end_) :
    rangeCheck ps = none := by
  induction ps with
  | nil => rfl
  | cons p t ih =>
    obtain ⟨h1, h2, h3⟩ := h p (List.mem_cons_self p t)
    have h3' : -2147483648 ≤ p.end_ ∧ p.end_ < 2147483648 := h3
    have hd : wrap32 (p.end_ - p.start) = p.end_ - p.start :=
      wrap32_eq_self _ (by omega) (by omega)
    unfold rangeCheck
    rw [if_neg (by omega), if_neg (by rw [hd]; omega)]
    exact ih (fun q hq => h q (List.mem_cons_of_mem p hq))

/-- C4 counterexample: `spWrap` passes the count check, and its single row has
`end ≤ start` — an "empty or negative" range in the claim's terms — yet
`Validate` does not return an `InvalidRange` error: the `int32` difference
`end - start` wraps to 1, the range check passes, and `Validate` succeeds. -/
theorem range_sanity_counterexample :
    countCheck spWrap = none
    ∧ (spWrap.shareProofs.getD 0 ⟨0, 0, [], []⟩).end_ ≤
        (spWrap.shareProofs.getD 0 ⟨0, 0, [], []⟩).start
    ∧ rangeCheck spWrap.shareProofs = none
    ∧ ShareProof.Validate spWrap rpvOk vTrue [] = some none :=
  ⟨by decide, by decide, by decide, by decide⟩

/-- C4 (amended): for proofs passing the count check, if some row has
`start < 0` or a non-positive `int32` difference `end - start`, `Validate`
returns one of the two `InvalidRange` errors, for every verifier and row
validator (so before any cryptography); conversely, if every row has
`start ≥ 0` and `end > start` (with `end` in `int32` range, as every decoded
field is), the range-sanity step passes. -/
theorem range_sanity_wrapped (sp : ShareProof) (root : Bytes)
    (hc : countCheck sp = none) :
    ((∃ p ∈ sp.shareProofs, p.start < 0 ∨ wrap32 (p.end_ - p.start) ≤ 0) →
      ∃ e, (e = negativeStartMsg ∨ e = emptyRangeMsg) ∧
        ∀ rpv v, sp.Validate rpv v root = some (some e))
    ∧ ((∀ p ∈ sp.shareProofs, 0 ≤ p.start ∧ p.start < p.end_ ∧ isInt32 p.end_) →
        rangeCheck sp.shareProofs = none) := by
  constructor
  · intro hbad
    obtain ⟨e, he⟩ := rangeCheck_isSome_of_bad _ hbad
    exact ⟨e, rangeCheck_msg _ e he,
      fun rpv v => validate_of_rangeErr sp rpv v root e hc he⟩
  · exact rangeCheck_none_of_good _

/-- Witness for C4's amended range law: a failing row yields an
`InvalidRange` error on one concrete proof, and well-ranged rows pass the
range step on another. -/
theorem range_sanity_wrapped_witness :
    (∃ e, (e = negativeStartMsg ∨ e = emptyRangeMsg) ∧
      ∀ rpv v, ShareProof.Validate spRangeBad rpv v [] = some (some e))
    ∧ rangeCheck spOne.shareProofs = none :=
  ⟨(range_sanity_wrapped spRangeBad [] (by decide)).1 (by decide),
   (range_sanity_wrapped spOne [] (by decide)).2 (by decide)⟩

/-- A well-formed wire message: `RowProof` present, one row root, one non-nil
Merkle path. -/
def rpGood : PBRowProof :=
  { rowRoots := [[5]], proofs := [some ⟨4, 1, [6], [[7]]⟩], startRow := 1, endRow := 1 }

/-- A wire message carrying `rpGood`. -/
def pbGood : PBShareProof :=
  { data := [[1], [2]], shareProofs := [⟨0, 2, [[3]], [4]⟩], namespaceId := [9]
    rowProof := some rpGood }

/-- A wire message whose `RowProof` is present but whose `Proofs` list is
longer than its `RowRoots` list. -/
def pbBad : PBShareProof :=
  { data := [], shareProofs := [], namespaceId := []
    rowProof := some { rowRoots := [], proofs := [some ⟨0, 0, [], []⟩],
                       startRow := 0, endRow := 0 } }

theorem fromProto_of_rowProof (pb : PBShareProof) (rp : PBRowProof)
    (hpb : pb.rowProof = some rp) :
    ShareProofFromProto pb =
      (if rp.proofs.length ≤ rp.rowRoots.length ∧ none ∉ rp.proofs then
        some
          ({ data := pb.data
             shareProofs := pb.shareProofs
             namespaceID := pb.namespaceId
             rowProof :=
               { rowRoots :=
                   rp.rowRoots.take rp.proofs.length
                     ++ List.replicate (rp.rowRoots.length - rp.proofs.length) ([] : Bytes)
                 proofs := rp.proofs.map protoToMerkleProof
                 startRow := rp.startRow
                 endRow := rp.endRow } }, none)
      else
        none) := by
  unfold ShareProofFromProto
  rw [hpb]

/-- C7: for every well-formed wire message — `RowProof` present, `RowRoots`
and `Proofs` of equal length, and no nil `Proofs` entry (a decoded message
never contains one) — the round trip `ToProto (FromProto pb)` reproduces `pb`
exactly, field for field. -/
theorem proto_round_trip (pb : PBShareProof) (rp : PBRowProof)
    (hpb : pb.rowProof = some rp) (hlen : rp.rowRoots.length = rp.proofs.length)
    (hn : none ∉ rp.proofs) :
    ∃ sp, ShareProofFromProto pb = some (sp, none) ∧ sp.ToProto = some pb := by
  refine ⟨⟨pb.data, pb.shareProofs, pb.namespaceId,
    ⟨rp.rowRoots, rp.proofs, rp.startRow, rp.endRow⟩⟩, ?_, ?_⟩
  · rw [fromProto_of_rowProof pb rp hpb, if_pos ⟨le_of_eq hlen.symm, hn⟩,
      map_protoToMerkleProof, ← hlen, List.take_length, Nat.sub_self,
      List.replicate_zero, List.append_nil]
  · unfold ShareProof.ToProto
    dsimp only
    rw [if_pos (le_of_eq hlen)]
    rw [hlen, List.take_length, Nat.sub_self, List.replicate_zero, List.append_nil,
      map_merkleProofToProto]
    have heta : (⟨rp.rowRoots, rp.proofs, rp.startRow, rp.endRow⟩ : PBRowProof) = rp := rfl
    rw [heta, ← hpb]

/-- Witness for C7: the round trip at the concrete message `pbGood`. -/
theorem proto_round_trip_witness :
    ∃ sp, ShareProofFromProto pbGood = some (sp, none) ∧ sp.ToProto = some pbGood :=
  proto_round_trip pbGood rpGood rfl (by decide) (by decide)

/-- C10 counterexample: `pbBad`'s `RowProof` field is present, but
`ShareProofFromProto` does not return a structurally mapped proof with a nil
error: its loop indexes `RowRoots` past its length and panics. -/
theorem from_proto_counterexample :
    pbBad.rowProof.isSome = true ∧ ShareProofFromProto pbBad = none :=
  ⟨by decide, by decide⟩

/-- C10 (amended): `ShareProofFromProto` never signals failure through its
error result — whenever it returns at all, the error component is nil — and
for every message whose `RowProof` is present, whose `Proofs` list is no
longer than its `RowRoots` list, and whose `Proofs` entries are non-nil, it
returns the structurally mapped `ShareProof` together with a nil error,
performing no count, range or cryptographic validation (the mapping succeeds
whatever the counts and ranges say, so a decoded-but-invalid proof is only
detectable by a separate `Validate` call). -/
theorem from_proto_no_error (pb : PBShareProof) :
    (∀ sp e, ShareProofFromProto pb = some (sp, e) → e = none)
    ∧ (∀ rp, pb.rowProof = some rp → rp.proofs.length ≤ rp.rowRoots.length →
        none ∉ rp.proofs →
        ShareProofFromProto pb = some
          (⟨pb.data, pb.shareProofs, pb.namespaceId,
            ⟨rp.rowRoots.take rp.proofs.length
               ++ List.replicate (rp.rowRoots.length - rp.proofs.length) ([] : Bytes),
             rp.proofs, rp.startRow, rp.endRow⟩⟩, none)) := by
  constructor
  · intro sp e h
    rcases hpb : pb.rowProof with _ | rp
    · unfold ShareProofFromProto at h
      rw [hpb] at h
      exact absurd h (by simp)
    · rw [fromProto_of_rowProof pb rp hpb] at h
      by_cases hcond : rp.proofs.length ≤ rp.rowRoots.length ∧ none ∉ rp.proofs
      · rw [if_pos hcond] at h
        have h2 := Option.some.inj h
        exact (congrArg Prod.snd h2).symm
      · rw [if_neg hcond] at h
        exact absurd h (by simp)
  · intro rp hpb hle hn
    rw [fromProto_of_rowProof pb rp hpb, if_pos ⟨hle, hn⟩, map_protoToMerkleProof]

/-- Witness for C10's amended statement at the concrete message `pbGood`. -/
theorem from_proto_no_error_witness :
    (none : Option String) = none
    ∧ ShareProofFromProto pbGood = some
        (⟨pbGood.data, pbGood.shareProofs, pbGood.namespaceId,
          ⟨rpGood.rowRoots.take rpGood.proofs.length
             ++ List.replicate (rpGood.rowRoots.length - rpGood.proofs.length) ([] : Bytes),
           rpGood.proofs, rpGood.startRow, rpGood.endRow⟩⟩, none) :=
  ⟨(from_proto_no_error pbGood).1 _ _
      ((from_proto_no_error pbGood).2 rpGood rfl (by decide) (by decide)),
   (from_proto_no_error pbGood).2 rpGood rfl (by decide) (by decide)⟩

/-- A proof with no data but one declared share: `VerifyProof`'s first slice
`Data[0:1]` is out of range. -/
def spSliceBad : ShareProof :=
  { data := [], shareProofs := [⟨0, 1, [], []⟩], namespaceID := []
    rowProof := { rowRoots := [[2]], proofs := [], startRow := 0, endRow := 0 } }

theorem verifyRows_eq_specRowWalk (v : Verifier) (ns : Bytes) (data : List Bytes)
    (rr : List Bytes) (ps : List NMTProof) :
    ∀ (i : Nat) (cursor : Int), 0 ≤ cursor →
      i + ps.length ≤ rr.length → boundsAux (data.length : Int) ps cursor →
      verifyRows v ns data rr ps i cursor =
        some (specRowWalk v ns data ps (rr.drop i) cursor) := by
  induction ps with
  | nil => intro i cursor _ _ _; rfl
  | cons p t ih =>
    intro i cursor h0 hlen hb
    have hb' : 0 ≤ p.end_ - p.start ∧ cursor + (p.end_ - p.start) < 2147483648 ∧
        cursor + (p.end_ - p.start) ≤ (data.length : Int) ∧
        boundsAux (data.length : Int) t (cursor + (p.end_ - p.start)) := hb
    obtain ⟨hd0, hlt, hle, hrec⟩ := hb'
    have hlen' : i + (t.length + 1) ≤ rr.length := by simpa using hlen
    have hsu : wrap32 (p.end_ - p.start) = p.end_ - p.start :=
      wrap32_eq_self _ (by omega) (by omega)
    have hhi : wrap32 (wrap32 (p.end_ - p.start) + cursor) = p.end_ - p.start + cursor := by
      rw [hsu]; exact wrap32_eq_self _ (by omega) (by omega)
    have hcur : wrap32 (cursor + wrap32 (p.end_ - p.start)) = cursor + (p.end_ - p.start) := by
      rw [hsu]; exact wrap32_eq_self _ (by omega) (by omega)
    simp only [verifyRows, specRowWalk]
    rw [hhi, hcur]
    rw [if_pos ⟨h0, by omega, by omega, by omega⟩]
    have harg : p.end_ - p.start + cursor - cursor = p.end_ - p.start := by ring
    rw [harg, headD_drop rr i [], List.tail_drop]
    cases hv : v p.start p.end_ p.nodes ns
        ((data.drop cursor.toNat).take (p.end_ - p.start).toNat) (rr.getD i []) with
    | false => simp [hv]
    | true =>
      simp only [hv, if_true, Bool.true_and]
      exact ih (i + 1) (cursor + (p.end_ - p.start)) (by omega) (by omega) hrec

/-- C2 (amended): for every proof whose declared ranges and row indices are in
bounds — every per-row share count non-negative, every cursor position within
`Data` and within `int32` range, a row root for every row — `VerifyProof`
computes exactly the walk the claim describes: rows in order with a running
cursor into `Data`, for row `i` the Row-Inclusion Verifier invoked with
`(start[i], end[i], nodes[i], NamespaceID, Data[cursor .. cursor+(end[i]-start[i])],
RowRoots[i])`, the cursor advanced by `end[i] - start[i]`, false as soon as one
row fails and true when every row verifies, with failure communicated only by
the boolean. (Outside those bounds the Go code panics on the slice instead of
returning — see the counterexample.) -/
theorem verifyProof_walk (v : Verifier) (sp : ShareProof) (h : InBounds sp) :
    sp.VerifyProof v =
      some (specRowWalk v sp.namespaceID sp.data sp.shareProofs sp.rowProof.rowRoots 0) := by
  have h' : sp.shareProofs.length ≤ sp.rowProof.rowRoots.length ∧
      boundsAux (sp.data.length : Int) sp.shareProofs 0 := h
  have hmain := verifyRows_eq_specRowWalk v sp.namespaceID sp.data sp.rowProof.rowRoots
    sp.shareProofs 0 0 le_rfl (by simpa using h'.1) h'.2
  simpa [ShareProof.VerifyProof] using hmain

/-- Witness for C2's amended walk equation at a concrete in-bounds proof. -/
theorem verifyProof_walk_witness :
    ShareProof.VerifyProof spOne vTrue =
      some (specRowWalk vTrue spOne.namespaceID spOne.data spOne.shareProofs
        spOne.rowProof.rowRoots 0) :=
  verifyProof_walk vTrue spOne ⟨by decide, by decide, by decide, by decide, trivial⟩

/-- C2 counterexample: the claim says `VerifyProof` never raises and reports
failure only through its boolean result; but on a proof with no data and one
declared share the slice `Data[0:1]` is out of range and the Go code panics
(modelled by `none`) for every verifier value. -/
theorem verifyProof_raises_counterexample :
    ShareProof.VerifyProof spSliceBad vTrue = none := by decide

theorem verifyRows_cons_step (v : Verifier) (ns : Bytes) (data : List Bytes)
    (rr : List Bytes) (p : NMTProof) (ps : List NMTProof) (i : Nat) (cursor : Int)
    (hcond : 0 ≤ cursor ∧ cursor ≤ wrap32 (wrap32 (p.end_ - p.start) + cursor) ∧
      wrap32 (wrap32 (p.end_ - p.start) + cursor) ≤ (data.length : Int) ∧ i < rr.length)
    (hv : v p.start p.end_ p.nodes ns
      ((data.drop cursor.toNat).take
        (wrap32 (wrap32 (p.end_ - p.start) + cursor) - cursor).toNat)
      (rr.getD i []) = true) :
    verifyRows v ns data rr (p :: ps) i cursor =
      verifyRows v ns data rr ps (i + 1) (wrap32 (cursor + wrap32 (p.end_ - p.start))) := by
  simp only [verifyRows]
  rw [if_pos hcond, if_pos hv]

theorem verifyRows_cons_panic (v : Verifier) (ns : Bytes) (data : List Bytes)
    (rr : List Bytes) (p : NMTProof) (ps : List NMTProof) (i : Nat) (cursor : Int)
    (hcond : ¬(0 ≤ cursor ∧ cursor ≤ wrap32 (wrap32 (p.end_ - p.start) + cursor) ∧
      wrap32 (wrap32 (p.end_ - p.start) + cursor) ≤ (data.length : Int) ∧
      i < rr.length)) :
    verifyRows v ns data rr (p :: ps) i cursor = none := by
  simp only [verifyRows]
  rw [if_neg hcond]

/-- C5 failing input: two rows declaring `2^31 - 1` shares each. The `int32`
share-count sum wraps to `-2`, which equals `int32(len(Data))` for a `Data`
of length `2^32 - 2`, so the structural checks pass; but inside `VerifyProof`
the second row's slice upper bound `sharesUsed + cursor` overflows `int32` to
`-2` and the Go slice expression `Data[2147483647:-2]` panics. -/
def spBig : ShareProof :=
  { data := List.replicate 4294967294 []
    shareProofs := [⟨0, 2147483647, [], []⟩, ⟨0, 2147483647, [], []⟩]
    namespaceID := []
    rowProof := { rowRoots := [[1], [2]], proofs := [], startRow := 0, endRow := 0 } }

/-- C5 is violated by the code: `Validate` on the structured input `spBig`
passes its count and range checks and then crashes in `VerifyProof` —
the slice bound `sharesUsed + cursor` is used after wrapping to a negative
`int32`, so not every index is bounds-checked before use. The result `none`
models the uncontrolled Go panic. -/
theorem validate_overflow_panic :
    ShareProof.Validate spBig rpvOk vTrue [] = none := by
  have hL : spBig.data.length = 4294967294 := List.length_replicate ..
  have hc : countCheck spBig = none := by
    have hcond : ¬(spBig.rowProof.rowRoots.length ≠ spBig.shareProofs.length ∨
        wrap32 (spBig.data.length : Int) ≠ numberOfSharesInProofs spBig.shareProofs) := by
      rw [hL]
      decide
    unfold countCheck
    rw [if_neg hcond]
  have hr : rangeCheck spBig.shareProofs = none := by decide
  have hv : spBig.VerifyProof vTrue = none := by
    show verifyRows vTrue spBig.namespaceID spBig.data spBig.rowProof.rowRoots
      spBig.shareProofs 0 0 = none
    have hsp : spBig.shareProofs = [⟨0, 2147483647, [], []⟩, ⟨0, 2147483647, [], []⟩] := rfl
    rw [hsp]
    rw [verifyRows_cons_step vTrue spBig.namespaceID spBig.data spBig.rowProof.rowRoots
      ⟨0, 2147483647, [], []⟩ [⟨0, 2147483647, [], []⟩] 0 0 (by rw [hL]; decide) rfl]
    have hcur1 : wrap32 (0 + wrap32 ((2147483647 : Int) - 0)) = 2147483647 := by decide
    rw [hcur1]
    exact verifyRows_cons_panic vTrue spBig.namespaceID spBig.data spBig.rowProof.rowRoots
      ⟨0, 2147483647, [], []⟩ [] 1 2147483647 (by rw [hL]; decide)
  exact validate_of_panic spBig rpvOk vTrue [] hc hr hv
